import Mathlib

/-
  Verification development for the bdblib wrapper library.

  The library (src/bdb/src/{table,index,database,sequence,recordset}.cc) is a thin
  C++ layer over the Berkeley DB engine: every operation serializes protobuf
  messages, performs one or two engine calls under the transaction on top of the
  database's transaction stack, and translates the engine status code into one of
  four exception codes (include/bdb.h).

  The embedding has two layers:
  * the wrapper layer, translated statement-for-statement from the C++ sources:
    status-code switches, the existence probe in update, the transaction-stack
    checks, the recordset state machine (m_type / m_isset / m_key);
  * the engine layer: Berkeley DB itself is an external library (not part of this
    repository), so its primitives (put/get/exists/cursor/join/sequence) are
    modelled as pure functions on explicit state, following their documented
    semantics at the level the wrapper relies on: DB_NOOVERWRITE put returns
    DB_KEYEXIST for a duplicate primary key, EINVAL for a collision in a unique
    (non-DUPSORT) associated secondary, DB_FOREIGN_CONFLICT when a derived key is
    absent from the foreign master; cursors keep a position in a list snapshot.

  Serialized protobuf keys and data are abstracted to Nat.
-/

namespace Bdb

/-! ### Status codes (db.h, errno) and exception codes (include/bdb.h) -/

def DB_NOTFOUND : Int := -30988
def DB_KEYEXIST : Int := -30996
def DB_FOREIGN_CONFLICT : Int := -30997
def EINVAL : Int := 22
def ENOENT : Int := 2
def EEXIST : Int := 17

def BDB_ERROR_UNKNOWN : Nat := 1
def BDB_ERROR_NOT_FOUND : Nat := 2
def BDB_ERROR_EXISTS : Nat := 3
def BDB_ERROR_FOREIGN_KEY : Nat := 4

/-! ### Engine model: one primary table with its associated secondaries -/

/-- Serialized key (abstracted byte sequence). -/
abbrev Key := Nat

/-- Serialized data (abstracted byte sequence). -/
abbrev Data := Nat

/-- An associated secondary index as the engine sees it: the projection callback
(`index_callback`, `none` = "no entry for this record"), the uniqueness flag
(`DB_DUPSORT` absent), and, when `add_foreign` was called on it, the key set of
the foreign master table it must reference. -/
structure IndexSpec where
  proj : Key → Data → Option Key
  unique : Bool
  foreignKeys : Option (List Key)

/-- Engine state of one primary table: its records (unique keys, in btree order)
and its associated secondary indexes. -/
structure TableState where
  recs : List (Key × Data)
  indexes : List IndexSpec

/-- Whether the primary key is present. -/
def keyPresent (st : TableState) (k : Key) : Bool :=
  st.recs.any (fun r => r.1 == k)

/-- Whether writing record `(k, d)` would put a duplicate derived key into a
unique associated secondary: some other record already yields the same derived
key under the same projection. -/
def uniqueConflict (st : TableState) (k : Key) (d : Data) : Bool :=
  st.indexes.any (fun i =>
    i.unique &&
      match i.proj k d with
      | none => false
      | some sk => st.recs.any (fun r => r.1 != k && i.proj r.1 r.2 == some sk))

/-- Whether writing record `(k, d)` violates a foreign constraint: some
associated secondary with a foreign master derives a key that is absent from
the master's key set. -/
def foreignConflict (st : TableState) (k : Key) (d : Data) : Bool :=
  st.indexes.any (fun i =>
    match i.foreignKeys, i.proj k d with
    | some ks, some fk => !(ks.contains fk)
    | _, _ => false)

/-- `DB->exists`: 0 when the key is present, `DB_NOTFOUND` otherwise. -/
def db_exists (st : TableState) (k : Key) : Int :=
  if keyPresent st k then 0 else DB_NOTFOUND

/-- `DB->get`: the data of the record with the given key, if present. -/
def db_get (st : TableState) (k : Key) : Option Data :=
  (st.recs.find? (fun r => r.1 == k)).map (fun r => r.2)

/-- Overwrite the record with key `k` in place, or append it. -/
def setRecord (recs : List (Key × Data)) (k : Key) (d : Data) : List (Key × Data) :=
  if recs.any (fun r => r.1 == k)
  then recs.map (fun r => if r.1 == k then (k, d) else r)
  else recs ++ [(k, d)]

/-- `DB->put` with `DB_NOOVERWRITE` (used by `table::insert`): the primary
insert is attempted first (`DB_KEYEXIST` on a duplicate key), then secondary
maintenance runs, failing with `EINVAL` on a unique-secondary collision and
with `DB_FOREIGN_CONFLICT` on a foreign-constraint violation. -/
def db_put_nooverwrite (st : TableState) (k : Key) (d : Data) : Int × TableState :=
  if keyPresent st k then (DB_KEYEXIST, st)
  else if uniqueConflict st k d then (EINVAL, st)
  else if foreignConflict st k d then (DB_FOREIGN_CONFLICT, st)
  else (0, { st with recs := st.recs ++ [(k, d)] })

/-- `DB->put` with flags 0 (used by `table::update`): overwrites; secondary
maintenance fails with `EINVAL` on a unique-secondary collision against another
record and with `DB_FOREIGN_CONFLICT` on a foreign-constraint violation. -/
def db_put_overwrite (st : TableState) (k : Key) (d : Data) : Int × TableState :=
  if uniqueConflict st k d then (EINVAL, st)
  else if foreignConflict st k d then (DB_FOREIGN_CONFLICT, st)
  else (0, { st with recs := setRecord st.recs k d })

/-! ### Wrapper layer: table.cc / index.cc

Each `*_wrap` function is the status-code translation of the corresponding C++
member, applied to the raw engine status; the state-level operation composes it
with the engine model. Mutating operations return the error-or-unit outcome
together with the resulting engine state. -/

/-- `table::exists` (table.cc:201-214): `return (res == 0);` — no status is
ever translated into an exception. -/
def table_exists_wrap (res : Int) : Bool :=
  res == 0

/-- `index::exists` (index.cc:186-193): `return table::exists(key);`. -/
def index_exists_wrap (res : Int) : Bool :=
  table_exists_wrap res

/-- `table::exists` composed with the engine probe. -/
def table_exists (st : TableState) (k : Key) : Bool :=
  table_exists_wrap (db_exists st k)

/-- Status translation of `table::insert` (table.cc:275-285): `EINVAL` and
`DB_KEYEXIST` become `BDB_ERROR_EXISTS`, `DB_FOREIGN_CONFLICT` becomes
`BDB_ERROR_FOREIGN_KEY`, any other non-zero status becomes
`BDB_ERROR_UNKNOWN`. -/
def table_insert_wrap (res : Int) : Except Nat Unit :=
  if res == 0 then .ok ()
  else if res == EINVAL then .error BDB_ERROR_EXISTS
  else if res == DB_KEYEXIST then .error BDB_ERROR_EXISTS
  else if res == DB_FOREIGN_CONFLICT then .error BDB_ERROR_FOREIGN_KEY
  else .error BDB_ERROR_UNKNOWN

/-- `table::insert` (table.cc:260-289): one `put(DB_NOOVERWRITE)` call, then
the status switch. -/
def table_insert (st : TableState) (k : Key) (d : Data) : Except Nat Unit × TableState :=
  let rs := db_put_nooverwrite st k d
  (table_insert_wrap rs.1, rs.2)

/-- Status translation of the `put` step of `table::update` (table.cc:327-336). -/
def table_update_put_wrap (res : Int) : Except Nat Unit :=
  if res == 0 then .ok ()
  else if res == DB_FOREIGN_CONFLICT then .error BDB_ERROR_FOREIGN_KEY
  else .error BDB_ERROR_UNKNOWN

/-- `table::update` (table.cc:300-339): an existence probe first —
`BDB_ERROR_NOT_FOUND` on any non-zero probe status, before the write — then an
overwriting `put` with its status switch. -/
def table_update (st : TableState) (k : Key) (d : Data) : Except Nat Unit × TableState :=
  let res := db_exists st k
  if res != 0 then (.error BDB_ERROR_NOT_FOUND, st)
  else
    let rs := db_put_overwrite st k d
    (table_update_put_wrap rs.1, rs.2)

/-- `table::select` (table.cc:348-377): `DB->get`, `DB_NOTFOUND` becomes
`BDB_ERROR_NOT_FOUND`; on success the data is deserialized and returned. -/
def table_select (st : TableState) (k : Key) : Except Nat Data :=
  match db_get st k with
  | some d => .ok d
  | none => .error BDB_ERROR_NOT_FOUND

/-! ### Wrapper layer: database.cc transaction stack -/

/-- Abstract engine transaction handle. -/
abbrev Txn := Nat

/-- `database::commit_transaction` (database.cc:286-311): with only the
top-level transaction on the stack, throw `BDB_ERROR_NOT_FOUND` without
touching the stack; otherwise pop the top transaction and commit it, throwing
`BDB_ERROR_UNKNOWN` when the engine commit (`commitRes`) fails. -/
def commit_transaction (txns : List Txn) (commitRes : Int) : Except Nat Unit × List Txn :=
  if txns.length == 1 then (.error BDB_ERROR_NOT_FOUND, txns)
  else
    if commitRes == 0 then (.ok (), txns.drop 1)
    else (.error BDB_ERROR_UNKNOWN, txns.drop 1)

/-- `database::rollback_transaction` (database.cc:319-344): same shape as
`commit_transaction` with the engine abort in place of the commit. -/
def rollback_transaction (txns : List Txn) (abortRes : Int) : Except Nat Unit × List Txn :=
  if txns.length == 1 then (.error BDB_ERROR_NOT_FOUND, txns)
  else
    if abortRes == 0 then (.ok (), txns.drop 1)
    else (.error BDB_ERROR_UNKNOWN, txns.drop 1)

/-! ### Wrapper layer: sequence.cc -/

/-- Persisted engine state of a sequence: its current value. With
`set_cachesize(0)` (sequence.cc:80) there is no client-side cached range, so
this value is the whole state and survives close/reopen. -/
structure SeqState where
  value : Int

/-- A freshly created sequence: `initial_value(m_seq, 1)` (sequence.cc:81). -/
def sequence_new : SeqState :=
  { value := 1 }

/-- `sequence::id` (sequence.cc:141-157): `DB_SEQUENCE->get` with delta 1 on an
increasing (`DB_SEQ_INC`) sequence returns the current value and advances the
persisted counter by 1. -/
def sequence_id (s : SeqState) : Int × SeqState :=
  (s.value, { value := s.value + 1 })

/-- Closing and reopening the database: with cache size 0 every allocation is
individually durable, so the persisted counter is unchanged. -/
def sequence_close_reopen (s : SeqState) : SeqState :=
  s

/-! ### Engine model: cursors

A Berkeley DB cursor over a btree is modelled as the list of rows it iterates
(in btree order) plus the current position (`none` = not positioned). Failed
operations leave the cursor where it was. -/

/-- A cursor over a primary table (or over a join result): rows are
(key, data) pairs. -/
structure DbCursor where
  rows : List (Key × Data)
  pos : Option Nat
deriving DecidableEq

/-- One entry of a secondary index: derived key, primary key, primary data
(the latter two are what `DBC->pget` reports). -/
structure IdxEntry where
  skey : Key
  pkey : Key
  pdata : Data
deriving DecidableEq

/-- A cursor over a secondary index. -/
structure IdxCursor where
  rows : List IdxEntry
  pos : Option Nat
deriving DecidableEq

/-- `DBC->get(DB_FIRST)`: position at the first row and return it;
`DB_NOTFOUND` on an empty cursor. -/
def cursor_first (c : DbCursor) : Int × Option (Key × Data) × DbCursor :=
  match c.rows with
  | [] => (DB_NOTFOUND, none, c)
  | r :: _ => (0, some r, { c with pos := some 0 })

/-- `DBC->get(DB_NEXT)`: from an unpositioned cursor, identical to `DB_FIRST`;
otherwise advance one row, `DB_NOTFOUND` (cursor unmoved) at the end. -/
def cursor_next (c : DbCursor) : Int × Option (Key × Data) × DbCursor :=
  match c.pos with
  | none => cursor_first c
  | some i =>
    match c.rows[i + 1]? with
    | some r => (0, some r, { c with pos := some (i + 1) })
    | none => (DB_NOTFOUND, none, c)

/-- `DBC->pget(DB_FIRST)` on a secondary cursor. -/
def idx_first (c : IdxCursor) : Int × Option IdxEntry × IdxCursor :=
  match c.rows with
  | [] => (DB_NOTFOUND, none, c)
  | r :: _ => (0, some r, { c with pos := some 0 })

/-- `DBC->pget(DB_NEXT)` on a secondary cursor. -/
def idx_next (c : IdxCursor) : Int × Option IdxEntry × IdxCursor :=
  match c.pos with
  | none => idx_first c
  | some i =>
    match c.rows[i + 1]? with
    | some r => (0, some r, { c with pos := some (i + 1) })
    | none => (DB_NOTFOUND, none, c)

/-- `DBC->pget(DB_SET)`: position at the first entry whose derived key equals
`k`; `DB_NOTFOUND` (cursor unmoved) when there is none. -/
def idx_set (c : IdxCursor) (k : Key) : Int × Option IdxEntry × IdxCursor :=
  match c.rows.findIdx? (fun r => r.skey == k) with
  | some j => (0, c.rows[j]?, { c with pos := some j })
  | none => (DB_NOTFOUND, none, c)

/-- `DBC->pget(DB_NEXT_DUP)`: advance to the next entry only if it carries the
same derived key as the current one; `DB_NOTFOUND` otherwise. `EINVAL` on an
unpositioned cursor. -/
def idx_next_dup (c : IdxCursor) : Int × Option IdxEntry × IdxCursor :=
  match c.pos with
  | none => (EINVAL, none, c)
  | some i =>
    match c.rows[i]?, c.rows[i + 1]? with
    | some cur, some nxt =>
      if nxt.skey == cur.skey then (0, some nxt, { c with pos := some (i + 1) })
      else (DB_NOTFOUND, none, c)
    | _, _ => (DB_NOTFOUND, none, c)

/-! ### Wrapper layer: recordset.cc -/

/-- The cursor of a recordset, indexed by the recordset type
(`BDB_RS_TABLE` / `BDB_RS_DUPLICATES` / `BDB_RS_UNIQUE` / `BDB_RS_JOIN`);
the `BDB_RS_UNIQUE` variant carries the serialized search key `m_key`. -/
inductive RsCursor where
  | tblCur (c : DbCursor)
  | dupCur (c : IdxCursor)
  | uniCur (k : Key) (c : IdxCursor)
  | joinCur (c : DbCursor)
deriving DecidableEq

/-- A recordset: its cursor (with type and search key) and the `m_isset`
flag distinguishing "not yet fetched" from "fetched at least once". -/
structure Recordset where
  curs : RsCursor
  m_isset : Bool
deriving DecidableEq

/-- The `m_key` member: non-null exactly for recordsets built by the
single-key (`BDB_RS_UNIQUE`) constructor. -/
def Recordset.m_key (rs : Recordset) : Option Key :=
  match rs.curs with
  | .uniCur k _ => some k
  | _ => none

/-- `recordset::recordset(table*)` (recordset.cc:78-96): a fresh table scan,
`m_isset = false`. -/
def recordset_of_table (rows : List (Key × Data)) : Recordset :=
  { curs := .tblCur { rows := rows, pos := none }, m_isset := false }

/-- `recordset::recordset(index*)` (recordset.cc:103-121): full scan over all
index entries, `m_isset = false`. -/
def recordset_of_index (rows : List IdxEntry) : Recordset :=
  { curs := .dupCur { rows := rows, pos := none }, m_isset := false }

/-- `recordset::recordset(index*, key)` (recordset.cc:128-151): entries with
one fixed derived key, `m_isset = false`, `m_key` kept. -/
def recordset_of_index_key (rows : List IdxEntry) (k : Key) : Recordset :=
  { curs := .uniCur k { rows := rows, pos := none }, m_isset := false }

/-- `recordset::fetch` (recordset.cc:249-305): one engine cursor call chosen
by `m_type` and `m_isset`; on status 0 the record is returned and `m_isset`
set, otherwise `false` (`none`) is returned and `m_isset` left alone.
A `BDB_RS_JOIN` recordset calls the engine only when `m_isset` is true. -/
def recordset_fetch (rs : Recordset) : Except Nat (Option (Key × Data) × Recordset) :=
  match rs.curs with
  | .tblCur c =>
    let r := if !rs.m_isset then cursor_first c else cursor_next c
    if r.1 == 0 then .ok (r.2.1, { curs := .tblCur r.2.2, m_isset := true })
    else .ok (none, { rs with curs := .tblCur r.2.2 })
  | .dupCur c =>
    let r := if !rs.m_isset then idx_first c else idx_next c
    if r.1 == 0 then
      .ok ((r.2.1).map (fun e => (e.pkey, e.pdata)), { curs := .dupCur r.2.2, m_isset := true })
    else .ok (none, { rs with curs := .dupCur r.2.2 })
  | .uniCur k c =>
    let r := if !rs.m_isset then idx_set c k else idx_next_dup c
    if r.1 == 0 then
      .ok ((r.2.1).map (fun e => (e.pkey, e.pdata)), { curs := .uniCur k r.2.2, m_isset := true })
    else .ok (none, { rs with curs := .uniCur k r.2.2 })
  | .joinCur c =>
    if rs.m_isset then
      let r := cursor_next c
      if r.1 == 0 then .ok (r.2.1, { curs := .joinCur r.2.2, m_isset := true })
      else .ok (none, { rs with curs := .joinCur r.2.2 })
    else .ok (none, rs)

/-- `recordset::rewind` (recordset.cc:313-326): throw `BDB_ERROR_UNKNOWN` on a
`BDB_RS_JOIN` recordset, otherwise clear `m_isset`. -/
def recordset_rewind (rs : Recordset) : Except Nat Recordset :=
  match rs.curs with
  | .joinCur _ => .error BDB_ERROR_UNKNOWN
  | _ => .ok { rs with m_isset := false }

/-! ### Wrapper layer: the join constructor (recordset.cc:159-214) -/

/-- The primary keys a single-key source recordset stands for: entries of its
index cursor whose derived key equals its fixed key. Empty for any other kind
of recordset. -/
def sourceKeys (rs : Recordset) : List Key :=
  match rs.curs with
  | .uniCur k c => (c.rows.filter (fun e => e.skey == k)).map (fun e => e.pkey)
  | _ => []

/-- One iteration of the join constructor's source loop (recordset.cc:175-201)
on a recordset whose `m_key` is non-null: `pget(DB_SET)` on the source cursor;
on success the source's `m_isset` is set; on failure the source keeps its flag.
Returns the mutated source and whether the probe found an entry. `none` when
`m_key` is null (the constructor then throws). -/
def join_set_source (rs : Recordset) : Option (Recordset × Bool) :=
  match rs.curs with
  | .uniCur k c =>
    let r := idx_set c k
    if r.1 == 0 then some ({ curs := .uniCur k r.2.2, m_isset := true }, true)
    else some ({ rs with curs := .uniCur k r.2.2 }, false)
  | _ => none

/-- The source loop of the join constructor: mutates every source in order,
returning the mutated list and the conjunction of the per-source probe results
(the join's initial `m_isset`). `none` as soon as a source has a null `m_key`. -/
def join_loop : List Recordset → Option (List Recordset × Bool)
  | [] => some ([], true)
  | rs :: rest =>
    match join_set_source rs with
    | none => none
    | some (rs', found) =>
      match join_loop rest with
      | none => none
      | some (rest', allfound) => some (rs' :: rest', found && allfound)

/-- `DB->join`: the rows of the engine join cursor — the primary keys of the
first source's duplicate set that every other source also contains, each paired
with its data from the primary table. -/
def joinRows (tblRows : List (Key × Data)) (list : List Recordset) : List (Key × Data) :=
  match list with
  | [] => []
  | first :: rest =>
    ((sourceKeys first).filter
        (fun pk => rest.all (fun rs => (sourceKeys rs).contains pk))).filterMap
      (fun pk => (tblRows.find? (fun r => r.1 == pk)).map (fun r => (pk, r.2)))

/-- `recordset::recordset(table*, const joinlist&)` (recordset.cc:159-214):
walk the sources (throwing `BDB_ERROR_UNKNOWN` at the first one whose `m_key`
is null, in which case no join recordset is constructed), position each at its
fixed key, start with `m_isset = true` and clear it when any probe finds
nothing, then open the engine join cursor. Returns the join recordset and the
mutated sources. -/
def recordset_join (tblRows : List (Key × Data)) (list : List Recordset) :
    Except Nat (Recordset × List Recordset) :=
  match join_loop list with
  | none => .error BDB_ERROR_UNKNOWN
  | some (list', isset) =>
    .ok ({ curs := .joinCur { rows := joinRows tblRows list, pos := none }, m_isset := isset },
         list')

/-- Repeated `fetch` calls, collecting the records returned before the first
`false` (or error); `fuel` bounds the number of calls. -/
def fetchAll : Nat → Recordset → List (Key × Data)
  | 0, _ => []
  | Nat.succ n, rs =>
    match recordset_fetch rs with
    | .ok (some r, rs') => r :: fetchAll n rs'
    | _ => []

/-! ## Helper lemmas -/

theorem keyPresent_false_find?_eq_none {st : TableState} {k : Key}
    (h : keyPresent st k = false) : st.recs.find? (fun r => r.1 == k) = none := by
  rw [List.find?_eq_none]
  intro x hx hpx
  have ha : st.recs.any (fun r => r.1 == k) = true := List.any_eq_true.mpr ⟨x, hx, hpx⟩
  rw [keyPresent] at h
  rw [h] at ha
  cases ha

theorem find?_overwrite (recs : List (Key × Data)) (k : Key) (d : Data)
    (h : recs.any (fun r => r.1 == k) = true) :
    (recs.map (fun r => if r.1 == k then (k, d) else r)).find? (fun r => r.1 == k)
      = some (k, d) := by
  induction recs with
  | nil => cases h
  | cons r rest ih =>
    rw [List.map_cons]
    by_cases hr : (r.1 == k) = true
    · rw [if_pos hr]
      rw [List.find?_cons_of_pos _ (by simp)]
    · rw [if_neg hr,
        List.find?_cons_of_neg (List.map (fun r => if r.1 == k then (k, d) else r) rest) hr]
      apply ih
      rw [List.any_cons] at h
      simpa [hr] using h

theorem findIdx?_spec (p : IdxEntry → Bool) :
    ∀ (l : List IdxEntry) (j : Nat), l.findIdx? p = some j →
      ∃ e, l[j]? = some e ∧ l.find? p = some e ∧ p e = true := by
  intro l
  induction l with
  | nil => intro j h; cases h
  | cons x xs ih =>
    intro j h
    rw [List.findIdx?_cons, List.findIdx?_succ] at h
    by_cases hx : p x = true
    · rw [if_pos hx] at h
      cases h
      exact ⟨x, by simp, by rw [List.find?_cons_of_pos _ hx], hx⟩
    · rw [if_neg hx] at h
      match hj : xs.findIdx? p with
      | none => rw [hj] at h; cases h
      | some j' =>
        rw [hj] at h
        injection h with hje
        obtain ⟨e, he1, he2, he3⟩ := ih j' hj
        exact ⟨e, by rw [← hje]; simpa using he1,
          by rw [List.find?_cons_of_neg xs hx]; exact he2, he3⟩

theorem find?_eq_none_of_findIdx?_eq_none {p : IdxEntry → Bool} {l : List IdxEntry}
    (h : l.findIdx? p = none) : l.find? p = none := by
  rw [List.find?_eq_none]
  intro x hx hpx
  rw [List.findIdx?_eq_none_iff] at h
  rw [h x hx] at hpx
  cases hpx

/-- `recordset::fetch` on a not-yet-fetched single-key recordset returns the
first index entry carrying the search key (or `false` when there is none). -/
theorem fetch_fresh_unique (k : Key) (c : IdxCursor) :
    ∃ rs', recordset_fetch ⟨.uniCur k c, false⟩ =
      .ok ((c.rows.find? (fun e => e.skey == k)).map (fun e => (e.pkey, e.pdata)), rs') := by
  match hj : c.rows.findIdx? (fun e => e.skey == k) with
  | some j =>
    obtain ⟨e, he1, he2, _⟩ := findIdx?_spec _ c.rows j hj
    refine ⟨⟨.uniCur k { c with pos := some j }, true⟩, ?_⟩
    simp only [recordset_fetch, idx_set, hj, he2, Bool.not_false, if_true]
    rw [he1]
    simp
  | none =>
    refine ⟨⟨.uniCur k c, false⟩, ?_⟩
    simp [recordset_fetch, idx_set, hj, find?_eq_none_of_findIdx?_eq_none hj, DB_NOTFOUND]

theorem idx_set_status (k : Key) (c : IdxCursor) :
    (idx_set c k).1 = 0 ↔ (c.rows.findIdx? (fun e => e.skey == k)).isSome = true := by
  rw [idx_set]
  cases hj : c.rows.findIdx? (fun e => e.skey == k) with
  | none => simp [DB_NOTFOUND]
  | some j => simp

theorem sourceKeys_ne_nil_iff (k : Key) (c : IdxCursor) (b : Bool) :
    sourceKeys ⟨.uniCur k c, b⟩ ≠ [] ↔
      (c.rows.findIdx? (fun e => e.skey == k)).isSome = true := by
  have hsk : sourceKeys ⟨.uniCur k c, b⟩
      = (c.rows.filter (fun e => e.skey == k)).map (fun e => e.pkey) := rfl
  rw [hsk]
  constructor
  · intro h
    rw [Option.isSome_iff_ne_none]
    intro hn
    rw [List.findIdx?_eq_none_iff] at hn
    apply h
    rw [List.map_eq_nil_iff, List.filter_eq_nil_iff]
    intro e he
    rw [hn e he]
    simp
  · intro h hnil
    rw [Option.isSome_iff_exists] at h
    obtain ⟨j, hj⟩ := h
    obtain ⟨e, he1, he2, he3⟩ := findIdx?_spec _ c.rows j hj
    have hmem : e ∈ c.rows.filter (fun e => e.skey == k) :=
      List.mem_filter.mpr ⟨List.mem_of_find?_eq_some he2, he3⟩
    have hmap := List.mem_map_of_mem (fun e => e.pkey) hmem
    rw [hnil] at hmap
    exact absurd hmap (List.not_mem_nil _)

theorem getElem?_ne_of_nodup {l : List IdxEntry} {i j : Nat} {e f : IdxEntry}
    (hnd : l.Nodup) (hi : l[i]? = some e) (hj : l[j]? = some f) (hij : i ≠ j) :
    e ≠ f := by
  intro hef
  subst hef
  have hlt : i < l.length := by
    by_contra hge
    rw [List.getElem?_eq_none (Nat.le_of_not_lt hge)] at hi
    cases hi
  exact hij (List.getElem?_inj hlt hnd (hi.trans hj.symm))

/-- `recordset::fetch` on an already-positioned single-key recordset
(`DB_NEXT_DUP`): the following entry is yielded when it carries the same
derived key. -/
theorem fetch_next_dup_hit (k : Key) (rows : List IdxEntry) (j : Nat) (cur nxt : IdxEntry)
    (hc : rows[j]? = some cur) (hn : rows[j + 1]? = some nxt)
    (hsk : (nxt.skey == cur.skey) = true) :
    recordset_fetch ⟨.uniCur k ⟨rows, some j⟩, true⟩ =
      .ok (some (nxt.pkey, nxt.pdata), ⟨.uniCur k ⟨rows, some (j + 1)⟩, true⟩) := by
  simp [recordset_fetch, idx_next_dup, hc, hn, hsk]

/-- `DB_NEXT_DUP` returns `false` when the following entry carries a different
derived key. -/
theorem fetch_next_dup_miss (k : Key) (rows : List IdxEntry) (j : Nat) (cur nxt : IdxEntry)
    (hc : rows[j]? = some cur) (hn : rows[j + 1]? = some nxt)
    (hsk : (nxt.skey == cur.skey) = false) :
    recordset_fetch ⟨.uniCur k ⟨rows, some j⟩, true⟩ =
      .ok (none, ⟨.uniCur k ⟨rows, some j⟩, true⟩) := by
  simp [recordset_fetch, idx_next_dup, hc, hn, hsk, DB_NOTFOUND]

/-- `DB_NEXT_DUP` returns `false` at the end of the cursor. -/
theorem fetch_next_dup_end (k : Key) (rows : List IdxEntry) (j : Nat)
    (hn : rows[j + 1]? = none) :
    recordset_fetch ⟨.uniCur k ⟨rows, some j⟩, true⟩ =
      .ok (none, ⟨.uniCur k ⟨rows, some j⟩, true⟩) := by
  cases hc : rows[j]? with
  | none => simp [recordset_fetch, idx_next_dup, hc, DB_NOTFOUND]
  | some cur => simp [recordset_fetch, idx_next_dup, hc, hn, DB_NOTFOUND]

/-- `recordset::fetch` on a JOIN recordset whose constructor found an empty
source never calls the engine: it returns `false` and leaves the recordset
unchanged. -/
theorem fetch_join_unset (c : DbCursor) :
    recordset_fetch ⟨.joinCur c, false⟩ = .ok (none, ⟨.joinCur c, false⟩) :=
  rfl

theorem fetch_join_none_nil :
    recordset_fetch ⟨.joinCur ⟨[], none⟩, true⟩ = .ok (none, ⟨.joinCur ⟨[], none⟩, true⟩) := by
  simp [recordset_fetch, cursor_next, cursor_first, DB_NOTFOUND]

theorem fetch_join_none_cons (r : Key × Data) (rest : List (Key × Data)) :
    recordset_fetch ⟨.joinCur ⟨r :: rest, none⟩, true⟩ =
      .ok (some r, ⟨.joinCur ⟨r :: rest, some 0⟩, true⟩) := by
  simp [recordset_fetch, cursor_next, cursor_first]

theorem fetch_join_pos_hit (rows : List (Key × Data)) (i : Nat) (r : Key × Data)
    (h : rows[i + 1]? = some r) :
    recordset_fetch ⟨.joinCur ⟨rows, some i⟩, true⟩ =
      .ok (some r, ⟨.joinCur ⟨rows, some (i + 1)⟩, true⟩) := by
  simp [recordset_fetch, cursor_next, h]

theorem fetch_join_pos_end (rows : List (Key × Data)) (i : Nat)
    (h : rows[i + 1]? = none) :
    recordset_fetch ⟨.joinCur ⟨rows, some i⟩, true⟩ =
      .ok (none, ⟨.joinCur ⟨rows, some i⟩, true⟩) := by
  simp [recordset_fetch, cursor_next, h, DB_NOTFOUND]

theorem fetchAll_join_unset : ∀ (fuel : Nat) (c : DbCursor),
    fetchAll fuel ⟨.joinCur c, false⟩ = [] := by
  intro fuel c
  cases fuel with
  | zero => rfl
  | succ n => rw [fetchAll, fetch_join_unset]

theorem fetchAll_join_pos : ∀ (fuel : Nat) (rows : List (Key × Data)) (i : Nat),
    fetchAll fuel ⟨.joinCur ⟨rows, some i⟩, true⟩ = (rows.drop (i + 1)).take fuel := by
  intro fuel
  induction fuel with
  | zero => intro rows i; rfl
  | succ n ih =>
    intro rows i
    cases hr : rows[i + 1]? with
    | some r =>
      have hlt : i + 1 < rows.length := by
        by_contra hge
        rw [List.getElem?_eq_none (Nat.le_of_not_lt hge)] at hr
        cases hr
      rw [fetchAll, fetch_join_pos_hit rows i r hr]
      show r :: fetchAll n ⟨.joinCur ⟨rows, some (i + 1)⟩, true⟩ = _
      rw [ih rows (i + 1)]
      rw [List.drop_eq_getElem_cons hlt]
      rw [List.take_succ_cons]
      have : rows[i + 1] = r := by
        have := List.getElem?_eq_getElem hlt
        rw [hr] at this
        injection this with h
        exact h.symm
      rw [this]
    | none =>
      rw [fetchAll, fetch_join_pos_end rows i hr]
      have hdrop : rows.drop (i + 1) = [] := by
        apply List.drop_eq_nil_of_le
        by_contra hgt
        rw [List.getElem?_eq_getElem (Nat.lt_of_not_le hgt)] at hr
        cases hr
      rw [hdrop]
      rfl

theorem fetchAll_join_start : ∀ (fuel : Nat) (rows : List (Key × Data)),
    fetchAll fuel ⟨.joinCur ⟨rows, none⟩, true⟩ = rows.take fuel := by
  intro fuel rows
  cases fuel with
  | zero => rfl
  | succ n =>
    cases rows with
    | nil => rw [fetchAll, fetch_join_none_nil]; rfl
    | cons r rest =>
      rw [fetchAll, fetch_join_none_cons r rest]
      show r :: fetchAll n ⟨.joinCur ⟨r :: rest, some 0⟩, true⟩ = _
      rw [fetchAll_join_pos n (r :: rest) 0]
      rfl

/-- The join's initial `m_isset` is true exactly when every source's probe
found an entry, i.e. every source has a non-empty filtered set. -/
theorem join_loop_isset :
    ∀ (list list' : List Recordset) (isset : Bool),
      join_loop list = some (list', isset) →
      (isset = true ↔ ∀ rs ∈ list, sourceKeys rs ≠ []) := by
  intro list
  induction list with
  | nil =>
    intro list' isset h
    rw [join_loop] at h
    injection h with h
    injection h with h1 h2
    rw [← h2]
    simp
  | cons rs rest ih =>
    intro list' isset h
    rw [join_loop] at h
    cases hs : join_set_source rs with
    | none =>
      rw [hs] at h
      exact Option.noConfusion h
    | some pr =>
      obtain ⟨rs0, found⟩ := pr
      rw [hs] at h
      cases hl : join_loop rest with
      | none =>
        rw [hl] at h
        exact Option.noConfusion h
      | some pr' =>
        obtain ⟨rest', allf⟩ := pr'
        rw [hl] at h
        injection h with h
        injection h with h1 h2
        rw [← h2, Bool.and_eq_true]
        have hfound : found = true ↔ sourceKeys rs ≠ [] := by
          obtain ⟨curs, bb⟩ := rs
          cases curs with
          | tblCur c => exact absurd hs (by rw [join_set_source]; simp)
          | dupCur c => exact absurd hs (by rw [join_set_source]; simp)
          | joinCur c => exact absurd hs (by rw [join_set_source]; simp)
          | uniCur k c =>
            simp only [join_set_source] at hs
            rw [sourceKeys_ne_nil_iff k c bb, ← idx_set_status k c]
            by_cases h0 : ((idx_set c k).1 == 0) = true
            · rw [if_pos h0] at hs
              injection hs with hs
              have hf := congrArg Prod.snd hs
              simp only at hf
              rw [← hf]
              simp only [true_iff]
              rw [beq_iff_eq] at h0
              exact h0
            · rw [if_neg h0] at hs
              injection hs with hs
              have hf := congrArg Prod.snd hs
              simp only at hf
              rw [← hf]
              constructor
              · intro hfalse
                cases hfalse
              · intro heq
                exact absurd (beq_iff_eq.mpr heq) h0
        constructor
        · rintro ⟨hf, ha⟩ rs1 hrs1
          rcases List.mem_cons.mp hrs1 with hre | hre
          · rw [hre]
            exact hfound.mp hf
          · exact (ih rest' allf hl).mp ha rs1 hre
        · intro hall
          refine ⟨hfound.mpr (hall rs (List.mem_cons_self rs rest)), ?_⟩
          exact (ih rest' allf hl).mpr (fun r hr => hall r (List.mem_cons_of_mem rs hr))

/-- Membership in the rows of the engine join cursor: exactly the table
records whose key lies in every source's filtered key set. -/
theorem mem_joinRows (tblRows : List (Key × Data)) (first : Recordset)
    (rest : List Recordset) (r : Key × Data) :
    r ∈ joinRows tblRows (first :: rest) ↔
      ((tblRows.find? (fun x => x.1 == r.1)).map (fun x => x.2) = some r.2 ∧
        ∀ rs ∈ first :: rest, r.1 ∈ sourceKeys rs) := by
  rw [joinRows, List.mem_filterMap]
  constructor
  · rintro ⟨pk, hpk, hf⟩
    cases hfind : tblRows.find? (fun x => x.1 == pk) with
    | none =>
      rw [hfind] at hf
      cases hf
    | some x =>
      rw [hfind, Option.map_some'] at hf
      injection hf with hf
      have hr1 : r.1 = pk := by rw [← hf]
      have hr2 : r.2 = x.2 := by rw [← hf]
      rw [List.mem_filter] at hpk
      obtain ⟨hmem, hall⟩ := hpk
      refine ⟨?_, ?_⟩
      · rw [hr1, hfind, Option.map_some', hr2]
      · intro rs hrs
        rcases List.mem_cons.mp hrs with hre | hre
        · rw [hre, hr1]
          exact hmem
        · rw [List.all_eq_true] at hall
          have hc := hall rs hre
          rw [hr1]
          simpa using hc
  · rintro ⟨hfind, hall⟩
    refine ⟨r.1, ?_, ?_⟩
    · rw [List.mem_filter]
      refine ⟨hall first (List.mem_cons_self first rest), ?_⟩
      rw [List.all_eq_true]
      intro rs hrs
      simpa using hall rs (List.mem_cons_of_mem first hrs)
    · cases hfx : tblRows.find? (fun x => x.1 == r.1) with
      | none =>
        rw [hfx] at hfind
        cases hfind
      | some x =>
        rw [hfx] at hfind
        rw [Option.map_some'] at hfind
        injection hfind with hfind
        rw [Option.map_some', Option.some.injEq]
        rw [hfind, Prod.mk.eta]

/-! ## Theorems -/

/-- C9: `table::exists` never raises any exception: it returns true exactly
when the engine probe reports status 0, and false for every non-zero engine
status (absence, corruption, resource exhaustion alike — indistinguishable from
an absent record); `index::exists` delegates to it and returns the same
value. -/
theorem exists_never_raises :
    (∀ res : Int, table_exists_wrap res = true ↔ res = 0) ∧
    (∀ res : Int, res ≠ 0 → table_exists_wrap res = false) ∧
    (∀ res : Int, index_exists_wrap res = table_exists_wrap res) ∧
    (∀ (st : TableState) (k : Key), table_exists st k = (db_exists st k == 0)) := by
  refine ⟨fun res => ?_, fun res h => ?_, fun res => rfl, fun st k => rfl⟩
  · simp [table_exists_wrap]
  · simp [table_exists_wrap, h]

/-- Witness for `exists_never_raises` at concrete statuses. -/
theorem exists_never_raises_witness :
    table_exists_wrap 5 = false ∧ index_exists_wrap 0 = table_exists_wrap 0 :=
  ⟨exists_never_raises.2.1 5 (by decide), exists_never_raises.2.2.1 0⟩

/-- C4: `commit_transaction` and `rollback_transaction` each raise
`BDB_ERROR_NOT_FOUND` when only the top-level transaction remains, leaving the
stack unchanged; otherwise they pop exactly the top transaction (the stack
becomes its tail) and finalize it, raising `BDB_ERROR_UNKNOWN` when the engine
finalize status is non-zero. -/
theorem commit_rollback_transaction_spec :
    ∀ (txns : List Txn) (res : Int),
      (txns.length = 1 →
        commit_transaction txns res = (.error BDB_ERROR_NOT_FOUND, txns) ∧
        rollback_transaction txns res = (.error BDB_ERROR_NOT_FOUND, txns)) ∧
      (txns.length ≠ 1 →
        (commit_transaction txns res).2 = txns.drop 1 ∧
        (rollback_transaction txns res).2 = txns.drop 1 ∧
        (res = 0 → (commit_transaction txns res).1 = .ok () ∧
          (rollback_transaction txns res).1 = .ok ()) ∧
        (res ≠ 0 → (commit_transaction txns res).1 = .error BDB_ERROR_UNKNOWN ∧
          (rollback_transaction txns res).1 = .error BDB_ERROR_UNKNOWN)) := by
  intro txns res
  constructor
  · intro h
    simp [commit_transaction, rollback_transaction, h]
  · intro h
    by_cases hr : res = 0
    · simp [commit_transaction, rollback_transaction, h, hr]
    · simp [commit_transaction, rollback_transaction, h, hr]

/-- Witness for `commit_rollback_transaction_spec` on concrete stacks. -/
theorem commit_rollback_transaction_spec_witness :
    commit_transaction [5] 0 = (.error BDB_ERROR_NOT_FOUND, [5]) ∧
    (commit_transaction [5, 7] 0).1 = .ok () ∧
    (rollback_transaction [5, 7] 3).2 = [7] ∧
    (rollback_transaction [5, 7] 3).1 = .error BDB_ERROR_UNKNOWN := by
  refine ⟨((commit_rollback_transaction_spec [5] 0).1 (by decide)).1, ?_, ?_, ?_⟩
  · exact (((commit_rollback_transaction_spec [5, 7] 0).2 (by decide)).2.2.1 rfl).1
  · exact ((commit_rollback_transaction_spec [5, 7] 3).2 (by decide)).2.1
  · exact (((commit_rollback_transaction_spec [5, 7] 3).2 (by decide)).2.2.2 (by decide)).2

/-- C8: a freshly created sequence has initial value 1 and step 1: the next-value
operation returns 1, 2, 3 on three successive calls, every return is one
greater than the previous return, closing and reopening the database leaves the
persisted counter unchanged (cache size 0), and a fourth call after a
close/reopen returns 4. -/
theorem sequence_spec :
    ((sequence_id sequence_new).1 = 1 ∧
      (sequence_id (sequence_id sequence_new).2).1 = 2 ∧
      (sequence_id (sequence_id (sequence_id sequence_new).2).2).1 = 3) ∧
    (∀ s : SeqState, (sequence_id (sequence_id s).2).1 = (sequence_id s).1 + 1) ∧
    (∀ s : SeqState, sequence_close_reopen s = s) ∧
    (sequence_id
      (sequence_close_reopen
        (sequence_id (sequence_id (sequence_id sequence_new).2).2).2)).1 = 4 := by
  exact ⟨⟨rfl, rfl, rfl⟩, fun s => rfl, fun s => rfl, rfl⟩

/-- C1: if `insert(K, D)` succeeds then, on the resulting state, `exists(K)`
returns true and `select(K)` returns exactly the inserted data `D`. -/
theorem insert_roundtrip :
    ∀ (st : TableState) (k : Key) (d : Data),
      (table_insert st k d).1 = .ok () →
      table_exists (table_insert st k d).2 k = true ∧
      table_select (table_insert st k d).2 k = .ok d := by
  intro st k d h
  by_cases hp : keyPresent st k = true
  · exfalso
    simp [table_insert, db_put_nooverwrite, hp, table_insert_wrap,
      DB_KEYEXIST, EINVAL] at h
  · rw [Bool.not_eq_true] at hp
    by_cases hu : uniqueConflict st k d = true
    · exfalso
      simp [table_insert, db_put_nooverwrite, hp, hu, table_insert_wrap, EINVAL] at h
    · rw [Bool.not_eq_true] at hu
      by_cases hf : foreignConflict st k d = true
      · exfalso
        simp [table_insert, db_put_nooverwrite, hp, hu, hf, table_insert_wrap,
          DB_FOREIGN_CONFLICT, EINVAL, DB_KEYEXIST] at h
      · rw [Bool.not_eq_true] at hf
        have hst : (table_insert st k d).2
            = { st with recs := st.recs ++ [(k, d)] } := by
          simp [table_insert, db_put_nooverwrite, hp, hu, hf]
        rw [hst]
        constructor
        · simp [table_exists, table_exists_wrap, db_exists, keyPresent, List.any_append]
        · rw [table_select, db_get]
          rw [List.find?_append, keyPresent_false_find?_eq_none hp]
          simp [List.find?_cons]

/-- Witness for `insert_roundtrip`: inserting into an empty table. -/
theorem insert_roundtrip_witness :
    table_exists (table_insert ⟨[], []⟩ 1 2).2 1 = true ∧
    table_select (table_insert ⟨[], []⟩ 1 2).2 1 = .ok 2 :=
  insert_roundtrip ⟨[], []⟩ 1 2 rfl

/-- C2: `table::insert` raises `BDB_ERROR_EXISTS` exactly when the key is
already present or a unique-index value collides; it raises
`BDB_ERROR_FOREIGN_KEY` when, absent those, a foreign constraint rejects the
write; and its status switch sends every other non-zero engine status to
`BDB_ERROR_UNKNOWN` — only `EINVAL` and `DB_KEYEXIST` are reported as
`BDB_ERROR_EXISTS`. -/
theorem insert_error_spec :
    (∀ (st : TableState) (k : Key) (d : Data),
      (table_insert st k d).1 = .error BDB_ERROR_EXISTS ↔
        (keyPresent st k = true ∨ uniqueConflict st k d = true)) ∧
    (∀ (st : TableState) (k : Key) (d : Data),
      keyPresent st k = false → uniqueConflict st k d = false →
      foreignConflict st k d = true →
      (table_insert st k d).1 = .error BDB_ERROR_FOREIGN_KEY) ∧
    (∀ res : Int, res ≠ 0 → res ≠ EINVAL → res ≠ DB_KEYEXIST →
      res ≠ DB_FOREIGN_CONFLICT → table_insert_wrap res = .error BDB_ERROR_UNKNOWN) ∧
    (∀ res : Int, table_insert_wrap res = .error BDB_ERROR_EXISTS ↔
      (res = EINVAL ∨ res = DB_KEYEXIST)) := by
  have hwrap : ∀ res : Int, table_insert_wrap res = .error BDB_ERROR_EXISTS ↔
      (res = EINVAL ∨ res = DB_KEYEXIST) := by
    intro res
    by_cases h0 : res = 0
    · simp [table_insert_wrap, h0, EINVAL, DB_KEYEXIST, BDB_ERROR_EXISTS]
    · by_cases h1 : res = EINVAL
      · simp [table_insert_wrap, h0, h1, EINVAL, DB_KEYEXIST]
      · by_cases h2 : res = DB_KEYEXIST
        · simp [table_insert_wrap, h0, h1, h2, EINVAL, DB_KEYEXIST]
        · by_cases h3 : res = DB_FOREIGN_CONFLICT
          · simp [table_insert_wrap, h0, h1, h2, h3, EINVAL, DB_KEYEXIST,
              DB_FOREIGN_CONFLICT, BDB_ERROR_EXISTS, BDB_ERROR_FOREIGN_KEY]
          · simp [table_insert_wrap, h0, h1, h2, h3,
              BDB_ERROR_EXISTS, BDB_ERROR_UNKNOWN]
  refine ⟨?_, ?_, ?_, hwrap⟩
  · intro st k d
    by_cases hp : keyPresent st k = true
    · simp [table_insert, db_put_nooverwrite, hp, hwrap, DB_KEYEXIST, EINVAL]
    · rw [Bool.not_eq_true] at hp
      by_cases hu : uniqueConflict st k d = true
      · simp [table_insert, db_put_nooverwrite, hp, hu, hwrap, EINVAL]
      · rw [Bool.not_eq_true] at hu
        by_cases hf : foreignConflict st k d = true
        · simp [table_insert, db_put_nooverwrite, hp, hu, hf, hwrap,
            EINVAL, DB_KEYEXIST, DB_FOREIGN_CONFLICT]
        · rw [Bool.not_eq_true] at hf
          simp [table_insert, db_put_nooverwrite, hp, hu, hf, hwrap,
            EINVAL, DB_KEYEXIST]
  · intro st k d hp hu hf
    simp [table_insert, db_put_nooverwrite, hp, hu, hf, table_insert_wrap,
      EINVAL, DB_KEYEXIST, DB_FOREIGN_CONFLICT, BDB_ERROR_FOREIGN_KEY]
  · intro res h0 h1 h2 h3
    simp [table_insert_wrap, h0, h1, h2, h3]

/-- Witness for `insert_error_spec`: duplicate key, unique-index collision,
foreign-key rejection, and an unrelated engine status. -/
theorem insert_error_spec_witness :
    (table_insert ⟨[(1, 5)], []⟩ 1 2).1 = .error BDB_ERROR_EXISTS ∧
    (table_insert ⟨[(1, 5)], [⟨fun _ d => some d, true, none⟩]⟩ 2 5).1
      = .error BDB_ERROR_EXISTS ∧
    (table_insert ⟨[], [⟨fun k _ => some k, false, some []⟩]⟩ 1 2).1
      = .error BDB_ERROR_FOREIGN_KEY ∧
    table_insert_wrap 99 = .error BDB_ERROR_UNKNOWN := by
  refine ⟨?_, ?_, ?_, ?_⟩
  · exact (insert_error_spec.1 ⟨[(1, 5)], []⟩ 1 2).mpr (Or.inl rfl)
  · exact (insert_error_spec.1 ⟨[(1, 5)], [⟨fun _ d => some d, true, none⟩]⟩ 2 5).mpr
      (Or.inr rfl)
  · exact insert_error_spec.2.1 ⟨[], [⟨fun k _ => some k, false, some []⟩]⟩ 1 2 rfl rfl rfl
  · exact insert_error_spec.2.2.1 99 (by decide) (by decide) (by decide) (by decide)

/-- C5: `table::update` probes existence before the write: on an absent key it
raises `BDB_ERROR_NOT_FOUND` with the table unchanged; on a present key (with
no unique-index collision) it overwrites the record's data — `select` then
returns the new data — raising `BDB_ERROR_FOREIGN_KEY` with the table unchanged
when a foreign constraint rejects the new data. -/
theorem update_spec :
    ∀ (st : TableState) (k : Key) (d : Data),
      (keyPresent st k = false →
        table_update st k d = (.error BDB_ERROR_NOT_FOUND, st)) ∧
      (keyPresent st k = true → uniqueConflict st k d = false →
        foreignConflict st k d = true →
        table_update st k d = (.error BDB_ERROR_FOREIGN_KEY, st)) ∧
      (keyPresent st k = true → uniqueConflict st k d = false →
        foreignConflict st k d = false →
        (table_update st k d).1 = .ok () ∧
        table_select (table_update st k d).2 k = .ok d) := by
  intro st k d
  refine ⟨fun hp => ?_, fun hp hu hf => ?_, fun hp hu hf => ?_⟩
  · simp [table_update, db_exists, hp, DB_NOTFOUND]
  · simp [table_update, db_exists, hp, db_put_overwrite, hu, hf,
      table_update_put_wrap, DB_FOREIGN_CONFLICT, BDB_ERROR_FOREIGN_KEY]
  · have hst : table_update st k d
        = (.ok (), { st with recs := setRecord st.recs k d }) := by
      simp [table_update, db_exists, hp, db_put_overwrite, hu, hf,
        table_update_put_wrap]
    rw [hst]
    refine ⟨rfl, ?_⟩
    rw [table_select, db_get]
    have hany : st.recs.any (fun r => r.1 == k) = true := hp
    rw [setRecord, if_pos hany, find?_overwrite st.recs k d hany]
    rfl

/-- Witness for `update_spec`: absent key, foreign rejection, and a clean
overwrite. -/
theorem update_spec_witness :
    table_update ⟨[], []⟩ 1 2 = (.error BDB_ERROR_NOT_FOUND, ⟨[], []⟩) ∧
    table_update ⟨[(1, 5)], [⟨fun k _ => some k, false, some [9]⟩]⟩ 1 2
      = (.error BDB_ERROR_FOREIGN_KEY, ⟨[(1, 5)], [⟨fun k _ => some k, false, some [9]⟩]⟩) ∧
    table_select (table_update ⟨[(1, 5)], []⟩ 1 2).2 1 = .ok 2 := by
  refine ⟨?_, ?_, ?_⟩
  · exact (update_spec ⟨[], []⟩ 1 2).1 rfl
  · exact (update_spec ⟨[(1, 5)], [⟨fun k _ => some k, false, some [9]⟩]⟩ 1 2).2.1 rfl rfl rfl
  · exact ((update_spec ⟨[(1, 5)], []⟩ 1 2).2.2 rfl rfl rfl).2

/-- C6: `recordset::rewind` on a TABLE, INDEX_ALL or INDEX_KEY recordset
resets it to the not-yet-fetched state — the next fetch returns the first
record of the scan (head of the table cursor, head of the index cursor, first
entry with the search key, respectively) — and it raises `BDB_ERROR_UNKNOWN`
whenever called on a JOIN recordset. -/
theorem rewind_spec :
    (∀ (c : DbCursor) (b : Bool),
      recordset_rewind ⟨.tblCur c, b⟩ = .ok ⟨.tblCur c, false⟩ ∧
      ∃ rs', recordset_fetch ⟨.tblCur c, false⟩ = .ok (c.rows.head?, rs')) ∧
    (∀ (c : IdxCursor) (b : Bool),
      recordset_rewind ⟨.dupCur c, b⟩ = .ok ⟨.dupCur c, false⟩ ∧
      ∃ rs', recordset_fetch ⟨.dupCur c, false⟩ =
        .ok ((c.rows.head?).map (fun e => (e.pkey, e.pdata)), rs')) ∧
    (∀ (k : Key) (c : IdxCursor) (b : Bool),
      recordset_rewind ⟨.uniCur k c, b⟩ = .ok ⟨.uniCur k c, false⟩ ∧
      ∃ rs', recordset_fetch ⟨.uniCur k c, false⟩ =
        .ok ((c.rows.find? (fun e => e.skey == k)).map (fun e => (e.pkey, e.pdata)), rs')) ∧
    (∀ (c : DbCursor) (b : Bool),
      recordset_rewind ⟨.joinCur c, b⟩ = .error BDB_ERROR_UNKNOWN) := by
  refine ⟨fun c b => ⟨rfl, ?_⟩, fun c b => ⟨rfl, ?_⟩,
    fun k c b => ⟨rfl, fetch_fresh_unique k c⟩, fun c b => rfl⟩
  · match hr : c.rows with
    | [] =>
      exact ⟨⟨.tblCur c, false⟩, by simp [recordset_fetch, cursor_first, hr, DB_NOTFOUND]⟩
    | r :: rest =>
      exact ⟨⟨.tblCur { c with pos := some 0 }, true⟩,
        by simp [recordset_fetch, cursor_first, hr]⟩
  · match hr : c.rows with
    | [] =>
      exact ⟨⟨.dupCur c, false⟩, by simp [recordset_fetch, idx_first, hr, DB_NOTFOUND]⟩
    | r :: rest =>
      exact ⟨⟨.dupCur { c with pos := some 0 }, true⟩,
        by simp [recordset_fetch, idx_first, hr]⟩

/-- C7: the join constructor requires every member of the supplied list to be
a single-key (INDEX_KEY) recordset — its `m_key` must be non-null: it returns
`BDB_ERROR_UNKNOWN` (and the only error it ever raises is
`BDB_ERROR_UNKNOWN`) exactly when some member has a null `m_key`, and then no
join recordset is constructed. -/
theorem join_precondition_spec :
    ∀ (tblRows : List (Key × Data)) (list : List Recordset),
      (recordset_join tblRows list = .error BDB_ERROR_UNKNOWN ↔
        ∃ rs ∈ list, rs.m_key = none) ∧
      (∀ e, recordset_join tblRows list = .error e → e = BDB_ERROR_UNKNOWN) := by
  have hsrc : ∀ rs : Recordset, join_set_source rs = none ↔ rs.m_key = none := by
    intro rs
    match rs with
    | ⟨.uniCur k c, b⟩ =>
      simp only [join_set_source, Recordset.m_key]
      constructor
      · intro h
        split at h
        · exact Option.noConfusion h
        · exact Option.noConfusion h
      · intro h
        exact Option.noConfusion h
    | ⟨.tblCur c, b⟩ => simp [join_set_source, Recordset.m_key]
    | ⟨.dupCur c, b⟩ => simp [join_set_source, Recordset.m_key]
    | ⟨.joinCur c, b⟩ => simp [join_set_source, Recordset.m_key]
  have hloop : ∀ list : List Recordset,
      join_loop list = none ↔ ∃ rs ∈ list, rs.m_key = none := by
    intro list
    induction list with
    | nil =>
      constructor
      · intro h
        rw [join_loop] at h
        exact Option.noConfusion h
      · rintro ⟨r, hr, -⟩
        exact absurd hr (List.not_mem_nil r)
    | cons rs rest ih =>
      constructor
      · intro h
        rw [join_loop] at h
        cases hs : join_set_source rs with
        | none => exact ⟨rs, List.mem_cons_self rs rest, (hsrc rs).mp hs⟩
        | some pr =>
          rw [hs] at h
          cases hl : join_loop rest with
          | none =>
            obtain ⟨r, hr, hrk⟩ := ih.mp hl
            exact ⟨r, List.mem_cons_of_mem rs hr, hrk⟩
          | some pr' =>
            rw [hl] at h
            exact Option.noConfusion h
      · rintro ⟨r, hr, hrk⟩
        rw [join_loop]
        rcases List.mem_cons.mp hr with hre | hre
        · rw [hre] at hrk
          rw [(hsrc rs).mpr hrk]
        · cases hs : join_set_source rs with
          | none => rfl
          | some pr =>
            rw [ih.mpr ⟨r, hre, hrk⟩]
  intro tblRows list
  constructor
  · rw [recordset_join]
    cases hl : join_loop list with
    | none =>
      constructor
      · intro _
        exact (hloop list).mp hl
      · intro _
        rfl
    | some pr =>
      obtain ⟨list', isset⟩ := pr
      constructor
      · intro h
        exact Except.noConfusion h
      · intro h
        rw [(hloop list).mpr h] at hl
        exact Option.noConfusion hl
  · intro e
    rw [recordset_join]
    cases hl : join_loop list with
    | none =>
      intro h
      injection h with h
      exact h.symm
    | some pr =>
      obtain ⟨list', isset⟩ := pr
      intro h
      exact Except.noConfusion h

/-- Witness for `join_precondition_spec`: a full-table-scan member makes the
join constructor fail with `BDB_ERROR_UNKNOWN`. -/
theorem join_precondition_spec_witness :
    recordset_join [] [recordset_of_table [(1, 2)]] = .error BDB_ERROR_UNKNOWN := by
  apply (join_precondition_spec [] [recordset_of_table [(1, 2)]]).1.mpr
  exact ⟨recordset_of_table [(1, 2)], List.mem_cons_self _ _, rfl⟩

/-- C10: constructing a JOIN recordset mutates the non-owned source recordsets
of the join list: every source whose cursor holds at least one entry with its
fixed key comes out of the source loop with its `m_isset` flag set to true, and
such a source's cursor is repositioned to the first entry carrying the fixed
key, so that a subsequent fetch on it (which now uses `DB_NEXT_DUP`) does not
return the source's first matching record. -/
theorem join_mutates_sources :
    (∀ (list list' : List Recordset) (isset : Bool),
      join_loop list = some (list', isset) →
      List.Forall₂ (fun rs rs' : Recordset =>
        sourceKeys rs ≠ [] → rs'.m_isset = true) list list') ∧
    (∀ (k : Key) (c : IdxCursor) (b : Bool) (rs' : Recordset) (found : Bool),
      join_set_source ⟨.uniCur k c, b⟩ = some (rs', found) →
      sourceKeys ⟨.uniCur k c, b⟩ ≠ [] →
      ∃ j, c.rows.findIdx? (fun e => e.skey == k) = some j ∧
        rs' = ⟨.uniCur k ⟨c.rows, some j⟩, true⟩ ∧
        (c.rows.Nodup →
          ∀ (o : Option (Key × Data)) (rs'' : Recordset),
            recordset_fetch rs' = .ok (o, rs'') →
            o ≠ (c.rows.find? (fun e => e.skey == k)).map
                  (fun e => (e.pkey, e.pdata)))) := by
  have hone : ∀ (k : Key) (c : IdxCursor) (b : Bool) (rs' : Recordset) (found : Bool),
      join_set_source ⟨.uniCur k c, b⟩ = some (rs', found) →
      sourceKeys ⟨.uniCur k c, b⟩ ≠ [] →
      ∃ j, c.rows.findIdx? (fun e => e.skey == k) = some j ∧
        rs' = ⟨.uniCur k ⟨c.rows, some j⟩, true⟩ := by
    intro k c b rs' found hset hne
    have hs := (sourceKeys_ne_nil_iff k c b).mp hne
    rw [Option.isSome_iff_exists] at hs
    obtain ⟨j, hj⟩ := hs
    have hset' : idx_set c k = (0, c.rows[j]?, { c with pos := some j }) := by
      rw [idx_set, hj]
    refine ⟨j, hj, ?_⟩
    simp only [join_set_source, hset'] at hset
    rw [if_pos (by decide)] at hset
    injection hset with hset
    have := congrArg Prod.fst hset
    simp only at this
    exact this.symm
  constructor
  · intro list
    induction list with
    | nil =>
      intro list' isset h
      rw [join_loop] at h
      injection h with h
      injection h with h1 h2
      rw [← h1]
      exact List.Forall₂.nil
    | cons rs rest ih =>
      intro list' isset h
      rw [join_loop] at h
      cases hs : join_set_source rs with
      | none =>
        rw [hs] at h
        exact Option.noConfusion h
      | some pr =>
        obtain ⟨rs0, found⟩ := pr
        rw [hs] at h
        cases hl : join_loop rest with
        | none =>
          rw [hl] at h
          exact Option.noConfusion h
        | some pr' =>
          obtain ⟨rest', allf⟩ := pr'
          rw [hl] at h
          injection h with h
          injection h with h1 h2
          rw [← h1]
          refine List.Forall₂.cons ?_ (ih rest' allf hl)
          intro hne
          obtain ⟨curs, bb⟩ := rs
          cases curs with
          | tblCur c => exact absurd hs (by rw [join_set_source]; simp)
          | dupCur c => exact absurd hs (by rw [join_set_source]; simp)
          | joinCur c => exact absurd hs (by rw [join_set_source]; simp)
          | uniCur k c =>
            obtain ⟨j, hj, hrs0⟩ := hone k c bb rs0 found hs hne
            rw [hrs0]
  · intro k c b rs' found hset hne
    obtain ⟨j, hj, hrs'⟩ := hone k c b rs' found hset hne
    obtain ⟨e, he1, he2, he3⟩ := findIdx?_spec _ c.rows j hj
    refine ⟨j, hj, hrs', fun hnd o rs'' hfetch => ?_⟩
    rw [he2]
    rw [hrs'] at hfetch
    cases hn : c.rows[j + 1]? with
    | none =>
      rw [fetch_next_dup_end k c.rows j hn] at hfetch
      rw [Except.ok.injEq, Prod.mk.injEq] at hfetch
      obtain ⟨ho, -⟩ := hfetch
      rw [← ho]
      simp
    | some nxt =>
      by_cases hsk : (nxt.skey == e.skey) = true
      · rw [fetch_next_dup_hit k c.rows j e nxt he1 hn hsk] at hfetch
        rw [Except.ok.injEq, Prod.mk.injEq] at hfetch
        obtain ⟨ho, -⟩ := hfetch
        rw [← ho]
        intro heq
        rw [Option.map_some', Option.some.injEq, Prod.mk.injEq] at heq
        obtain ⟨hp, hd⟩ := heq
        have hnef : e ≠ nxt :=
          getElem?_ne_of_nodup hnd he1 hn (by omega)
        apply hnef
        have hske : nxt.skey = e.skey := by
          rw [Nat.beq_eq_true_eq] at hsk
          exact hsk
        cases e
        cases nxt
        simp only [IdxEntry.mk.injEq]
        simp only at hp hd hske
        exact ⟨hske.symm, hp.symm, hd.symm⟩
      · rw [fetch_next_dup_miss k c.rows j e nxt he1 hn
          (Bool.not_eq_true _ ▸ hsk)] at hfetch
        rw [Except.ok.injEq, Prod.mk.injEq] at hfetch
        obtain ⟨ho, -⟩ := hfetch
        rw [← ho]
        simp

/-- C3: for a join recordset built from single-key recordsets over one table:
join-recordset fetch never raises an error; when the intersection of the
filtered sets is empty (in particular when any one filter cursor matched no
record) every fetch returns `false`, leaving the recordset unchanged; and
otherwise the fetched records are exactly the primary records present in all
underlying filtered sets. -/
theorem join_fetch_spec :
    ∀ (tblRows : List (Key × Data)) (list : List Recordset)
      (joined : Recordset) (list' : List Recordset),
      list ≠ [] →
      recordset_join tblRows list = .ok (joined, list') →
      (∀ (c : DbCursor) (b : Bool),
        ∃ o rs', recordset_fetch ⟨.joinCur c, b⟩ = .ok (o, rs')) ∧
      (joinRows tblRows list = [] →
        recordset_fetch joined = .ok (none, joined)) ∧
      (∀ r : Key × Data,
        r ∈ fetchAll (joinRows tblRows list).length joined ↔
          ((tblRows.find? (fun x => x.1 == r.1)).map (fun x => x.2) = some r.2 ∧
            ∀ rs ∈ list, r.1 ∈ sourceKeys rs)) := by
  intro tblRows list joined list' hne hjoin
  rw [recordset_join] at hjoin
  cases hl : join_loop list with
  | none =>
    rw [hl] at hjoin
    exact Except.noConfusion hjoin
  | some pr =>
    obtain ⟨list0, isset⟩ := pr
    rw [hl] at hjoin
    injection hjoin with hjoin
    injection hjoin with hj1 hj2
    subst hj1
    refine ⟨?_, ?_, ?_⟩
    · intro c b
      cases b with
      | false => exact ⟨none, ⟨.joinCur c, false⟩, rfl⟩
      | true =>
        by_cases h0 : ((cursor_next c).1 == 0) = true
        · refine ⟨(cursor_next c).2.1, ⟨.joinCur (cursor_next c).2.2, true⟩, ?_⟩
          simp only [recordset_fetch]
          rw [if_pos h0, if_pos trivial]
        · refine ⟨none, ⟨.joinCur (cursor_next c).2.2, true⟩, ?_⟩
          simp only [recordset_fetch]
          rw [if_neg h0, if_pos trivial]
    · intro hrows
      rw [hrows]
      cases isset with
      | false => rfl
      | true => exact fetch_join_none_nil
    · intro r
      by_cases hall : ∀ rs ∈ list, sourceKeys rs ≠ []
      · have hisset : isset = true := (join_loop_isset list list0 isset hl).mpr hall
        rw [hisset]
        rw [fetchAll_join_start, List.take_length]
        match list, hne with
        | first :: rest, _ => exact mem_joinRows tblRows first rest r
      · have hisset : isset = false := by
          cases hb : isset with
          | false => rfl
          | true => exact absurd ((join_loop_isset list list0 isset hl).mp hb) hall
        rw [hisset, fetchAll_join_unset]
        constructor
        · intro h
          exact absurd h (List.not_mem_nil r)
        · rintro ⟨-, hmem⟩
          push_neg at hall
          obtain ⟨rs, hrs, hemp⟩ := hall
          have hin := hmem rs hrs
          rw [hemp] at hin
          exact absurd hin (List.not_mem_nil _)

/-- Witness for `join_mutates_sources`: one source over a two-entry duplicate
run of derived key 10, probed by the join constructor. -/
theorem join_mutates_sources_witness :
    List.Forall₂ (fun rs rs' : Recordset => sourceKeys rs ≠ [] → rs'.m_isset = true)
      [⟨.uniCur 10 ⟨[⟨10, 1, 100⟩, ⟨10, 2, 200⟩], none⟩, false⟩]
      [⟨.uniCur 10 ⟨[⟨10, 1, 100⟩, ⟨10, 2, 200⟩], some 0⟩, true⟩] ∧
    (∃ j, ([⟨10, 1, 100⟩, ⟨10, 2, 200⟩] : List IdxEntry).findIdx?
          (fun e => e.skey == 10) = some j ∧
      (⟨.uniCur 10 ⟨[⟨10, 1, 100⟩, ⟨10, 2, 200⟩], some 0⟩, true⟩ : Recordset)
        = ⟨.uniCur 10 ⟨[⟨10, 1, 100⟩, ⟨10, 2, 200⟩], some j⟩, true⟩ ∧
      (([⟨10, 1, 100⟩, ⟨10, 2, 200⟩] : List IdxEntry).Nodup →
        ∀ (o : Option (Key × Data)) (rs'' : Recordset),
          recordset_fetch ⟨.uniCur 10 ⟨[⟨10, 1, 100⟩, ⟨10, 2, 200⟩], some 0⟩, true⟩
            = .ok (o, rs'') →
          o ≠ (([⟨10, 1, 100⟩, ⟨10, 2, 200⟩] : List IdxEntry).find?
                (fun e => e.skey == 10)).map (fun e => (e.pkey, e.pdata)))) :=
  ⟨join_mutates_sources.1 _ _ true rfl,
   join_mutates_sources.2 10 ⟨[⟨10, 1, 100⟩, ⟨10, 2, 200⟩], none⟩ false
     ⟨.uniCur 10 ⟨[⟨10, 1, 100⟩, ⟨10, 2, 200⟩], some 0⟩, true⟩ true rfl (by decide)⟩

/-- Witness for `join_fetch_spec`: a join of two single-key sources whose
filtered sets are {1, 2} and {2, 4} yields the record (2, 200). -/
theorem join_fetch_spec_witness :
    (2, 200) ∈ fetchAll 1 (⟨.joinCur ⟨[(2, 200)], none⟩, true⟩ : Recordset) := by
  have h := join_fetch_spec [(1, 100), (2, 200), (3, 300), (4, 400)]
    [⟨.uniCur 10 ⟨[⟨10, 1, 100⟩, ⟨10, 2, 200⟩, ⟨11, 3, 300⟩], none⟩, false⟩,
     ⟨.uniCur 20 ⟨[⟨20, 2, 200⟩, ⟨20, 4, 400⟩], none⟩, false⟩]
    ⟨.joinCur ⟨[(2, 200)], none⟩, true⟩
    [⟨.uniCur 10 ⟨[⟨10, 1, 100⟩, ⟨10, 2, 200⟩, ⟨11, 3, 300⟩], some 0⟩, true⟩,
     ⟨.uniCur 20 ⟨[⟨20, 2, 200⟩, ⟨20, 4, 400⟩], some 0⟩, true⟩]
    (by decide) rfl
  exact (h.2.2 (2, 200)).mpr (by decide)

end Bdb
